import Mathlib

/-!
Verification of the response-capture core of the Gpl-scraper repository
(`graphql_scraper.py`): the per-URL response handler, its deduplicating
store, progress persistence, the idle-timeout listening loop, the timeout
fallback handler, and the retry/finally structure of `scrape_url`.

Python values are modelled shallowly: decoded JSON payloads are an
arbitrary type `α` with decidable structural equality (Python `==` on
decoded JSON is deep structural equality), wall-clock time is `Nat`
(seconds), the filesystem of progress files is a map from filename to the
stored pair, and Python exceptions are an explicit error type threaded
through `Except`.
-/

namespace GplScraper

/-- Helper: does the pattern occur contiguously in the character list? -/
def containsSubAux (pat : List Char) : List Char → Bool
  | [] => pat.isEmpty
  | c :: rest => pat.isPrefixOf (c :: rest) || containsSubAux pat rest

/-- Models Python's `str.lower()`: lowercase each character. Defined over
the character list (rather than `String.toLower`, which is the same map)
so that it computes by kernel reduction. -/
def strLower (s : String) : String :=
  String.mk (s.toList.map Char.toLower)

/-- Substring containment on strings, modelling Python's `needle in haystack`
for `str` values: the character list of `pat` occurs contiguously in `s`. -/
def containsSub (pat s : String) : Bool :=
  containsSubAux pat.toList s.toList

/-- Splits a character list at the first occurrence of an infix pattern,
returning the part before the pattern and the part after it, or `none` when
the pattern does not occur. Helper for the `urlparse` model. -/
def splitFirstInfix (pat : List Char) : List Char → Option (List Char × List Char)
  | [] => if pat.isEmpty then some ([], []) else none
  | c :: rest =>
    if pat.isPrefixOf (c :: rest) then some ([], (c :: rest).drop pat.length)
    else
      match splitFirstInfix pat rest with
      | some (pre, post) => some (c :: pre, post)
      | none => none

/-- Models `urllib.parse.urlparse(url).scheme` on inputs of the shape
`scheme://rest`: the part before the first `://`, or empty when there is
none. (`graphql_scraper.py` only ever feeds whole URLs of this shape to
`urlparse`.) -/
def urlScheme (s : String) : String :=
  match splitFirstInfix "://".toList s.toList with
  | some (pre, _) => String.mk pre
  | none => ""

/-- Models `urllib.parse.urlparse(url).netloc` on inputs of the shape
`scheme://host/...`: the part after the first `://` up to the first `/`,
`?` or `#`. -/
def urlNetloc (s : String) : String :=
  match splitFirstInfix "://".toList s.toList with
  | some (_, post) =>
    String.mk (post.takeWhile (fun c => c ≠ '/' && c ≠ '?' && c ≠ '#'))
  | none => ""

/-- `is_valid_url` (graphql_scraper.py line 81): the URL parses with a
non-empty scheme and a non-empty netloc. -/
def is_valid_url (url : String) : Bool :=
  !(urlScheme url).isEmpty && !(urlNetloc url).isEmpty

/-- `sanitize_filename` (line 215): keep only alphanumeric characters,
space, dash and underscore, then strip trailing whitespace (Python
`rstrip`; after the filter the only whitespace left is the space). -/
def sanitize_filename (filename : String) : String :=
  String.mk ((filename.toList.filter
    (fun c => c.isAlpha || c.isDigit || c = ' ' || c = '-' || c = '_')).reverse.dropWhile
      (fun c => c = ' ')).reverse

/-- The progress-file key derived in `scrape_url` (lines 232-233):
`progress_{sanitize_filename(url)}.pkl`. -/
def progressFile (url : String) : String :=
  "progress_" ++ sanitize_filename url ++ ".pkl"

/-- `try_add` behaviour of the per-URL response list (lines 275-276 and
298-299): `if not any(existing == payload for existing in url_responses):
url_responses.append(payload)`. Returns the updated list; a structural
duplicate is a no-op. -/
def tryAdd [BEq α] (store : List α) (payload : α) : List α :=
  if store.any (fun existing => existing == payload) then store
  else store ++ [payload]

/-- A captured network response as `handle_response` (line 264) sees it:
the request's resource type, the response URL, the request headers (a key
value map, keys as playwright reports them), and the decoded JSON body —
`some payload` when `response.json()` succeeds, `none` when it raises
`json.JSONDecodeError`. Payloads are an arbitrary type `α` with structural
equality. -/
structure NetResponse (α : Type) where
  resourceType : String
  url : String
  headers : List (String × String)
  json : Option α
deriving DecidableEq

/-- The controller-local state `handle_response` mutates through `nonlocal`
(line 265): the detected endpoint `api_url`, the store `url_responses`, and
`last_response_time` (seconds). -/
structure HandlerState (α : Type) where
  apiUrl : Option String
  store : List α
  lastResponseTime : Nat
deriving DecidableEq

/-- The three classification outcomes of the capture path. -/
inductive Classification where
  | platformA   -- Dutchie, handled as GraphQL
  | platformB   -- iHeartJane, handled as JSON
  | ignored
deriving DecidableEq

/-- The `is_dutchie` test of line 267: `"dutchie.com" in response.url.lower()`. -/
def isDutchie (r : NetResponse α) : Bool :=
  containsSub "dutchie.com" (strLower r.url)

/-- The `is_iheartjane` test of line 268: `"iheartjane.com" in
response.url.lower() or "x-algolia-agent" in response.request.headers`
(Python `in` on a dict checks keys). -/
def isIheartjane (r : NetResponse α) : Bool :=
  containsSub "iheartjane.com" (strLower r.url) ||
    r.headers.any (fun kv => kv.fst == "x-algolia-agent")

/-- The classification implicit in `handle_response` (lines 266-293): only
fetch/xhr resources are considered; `is_dutchie` wins over `is_iheartjane`
(`if`/`elif`); anything else is ignored. -/
def classify (r : NetResponse α) : Classification :=
  if r.resourceType == "fetch" || r.resourceType == "xhr" then
    if isDutchie r then .platformA
    else if isIheartjane r then .platformB
    else .ignored
  else .ignored

/-- Does the URL's host match a platform domain in the sense of the spec's
words: the netloc equals the domain or is a subdomain of it
(case-insensitively). Used only by `classifySpecHost`. -/
def hostMatches (url domain : String) : Bool :=
  strLower (urlNetloc url) == domain ||
    (("." ++ domain).toList.isSuffixOf (strLower (urlNetloc url)).toList)

/-- Modelled from the spec's words for the claimed decision rule (spec
§4.1): (a) not fetch/xhr → Ignore; (b) destination HOST matches the
PlatformA domain → PlatformA; (c) destination HOST matches the PlatformB
domain or the PlatformB header marker is present → PlatformB; (d) otherwise
Ignore. This is the spec-side definition for the refinement comparison with
`classify`; the source tests substring containment in the whole URL, not
the host. -/
def classifySpecHost (r : NetResponse α) : Classification :=
  if r.resourceType == "fetch" || r.resourceType == "xhr" then
    if hostMatches r.url "dutchie.com" then .platformA
    else if hostMatches r.url "iheartjane.com" ||
        r.headers.any (fun kv => kv.fst == "x-algolia-agent") then .platformB
    else .ignored
  else .ignored

/-- The amended decision rule, written from the amended claim's words:
as the spec's ordered rule, but matching a platform by substring
containment of its domain in the whole lowercased destination URL (plus
the header marker for PlatformB), which is what lines 267-268 test. -/
def classifyAmended (r : NetResponse α) : Classification :=
  if r.resourceType == "fetch" || r.resourceType == "xhr" then
    if containsSub "dutchie.com" (strLower r.url) then .platformA
    else if containsSub "iheartjane.com" (strLower r.url) ||
        r.headers.any (fun kv => kv.fst == "x-algolia-agent") then .platformB
    else .ignored
  else .ignored

/-- `handle_response` (lines 264-314), restricted to its effect on the
controller-local state (CSV writing and progress saving are modelled
separately): for a fetch/xhr response matching a platform, first overwrite
`api_url` with the response URL, then decode (`response.json()`), then the
duplicate check; a newly inserted payload also updates
`last_response_time` to the current time. Both platform branches mutate
the state identically. -/
def handle_response [BEq α] (now : Nat) (r : NetResponse α)
    (st : HandlerState α) : HandlerState α :=
  if r.resourceType == "fetch" || r.resourceType == "xhr" then
    if isDutchie r then
      let st1 := { st with apiUrl := some r.url }
      match r.json with
      | some j =>
        if st1.store.any (fun existing => existing == j) then st1
        else { st1 with store := st1.store ++ [j], lastResponseTime := now }
      | none => st1
    else if isIheartjane r then
      let st1 := { st with apiUrl := some r.url }
      match r.json with
      | some j =>
        if st1.store.any (fun existing => existing == j) then st1
        else { st1 with store := st1.store ++ [j], lastResponseTime := now }
      | none => st1
    else st
  else st

/-- The response is a structural duplicate of an existing store entry, or
its body fails to decode as JSON — the two cases in which `handle_response`
leaves `url_responses` untouched for a matching response. -/
def duplicateOrUndecodable [BEq α] (r : NetResponse α)
    (st : HandlerState α) : Bool :=
  match r.json with
  | none => true
  | some j => st.store.any (fun existing => existing == j)

/-- The filesystem of progress files: a map from filename to the stored
pair `{responses, graphql_url}`. `pickle.dump`/`pickle.load` of that dict
(lines 196-197, 206-209) is modelled as faithful storage of the pair. -/
def ProgressFS (α : Type) := String → Option (List α × Option String)

/-- The empty filesystem: no progress file exists. -/
def emptyFS (α : Type) : ProgressFS α := fun _ => none

/-- `save_progress(filename, responses, graphql_url)` (lines 194-200):
create or overwrite the file with the pair. (IO errors are logged and
swallowed in the source; the success path is modelled.) -/
def save_progress (fs : ProgressFS α) (filename : String) (responses : List α)
    (graphql_url : Option String) : ProgressFS α :=
  fun k => if k = filename then some (responses, graphql_url) else fs k

/-- `load_progress(filename)` (lines 203-212): return the stored pair when
the file exists, `([], None)` when it does not. -/
def load_progress (fs : ProgressFS α) (filename : String) :
    List α × Option String :=
  match fs filename with
  | some progress => progress
  | none => ([], none)

/-- `os.remove(progress_file)` guarded by `os.path.exists` (lines 378-379):
afterwards the file does not exist. -/
def deleteProgress (fs : ProgressFS α) (filename : String) : ProgressFS α :=
  fun k => if k = filename then none else fs k

/-- The Python exceptions the `scrape_url` model distinguishes. -/
inductive PyError where
  | timeoutError       -- playwright TimeoutError
  | connectionError    -- ConnectionError
  | attributeError     -- AttributeError, e.g. None.lower()
  | retryError         -- tenacity RetryError after exhausting attempts
deriving DecidableEq

/-- `should_retry_exception` (lines 219-220): only playwright timeouts and
connection errors are retryable. -/
def should_retry_exception : PyError → Bool
  | .timeoutError => true
  | .connectionError => true
  | _ => false

/-- `custom_timeout_handler(page, timeout)` (lines 168-179), with the page
abstracted to the two observations the function makes: whether
`wait_for_load_state("networkidle", timeout)` succeeds within the timeout,
and whether `page.query_selector('body')` finds an element. On timeout
with a body present it proceeds; on timeout with no body it raises a
playwright timeout error carrying the given message. -/
def custom_timeout_handler (networkIdleReached : Bool) (bodyFound : Bool) :
    Except (PyError × String) Unit :=
  if networkIdleReached then .ok ()
  else if bodyFound then .ok ()
  else .error (.timeoutError, "Page body not found after timeout")

/-- The listening loop of `scrape_url` (lines 339-345):
`while True: page.wait_for_timeout(poll); if now - last_response_time >
threshold: break`, with wall time in seconds advancing by `poll` per
iteration and no response accepted (so `lastResponse` is constant). The
`fuel` bound makes the recursion structural; the result is the wall time
at which the loop exits, or `none` when the fuel runs out first. In the
source `poll` is 5 seconds (5000 ms) and `threshold` is 30. -/
def listenLoop (fuel clock lastResponse threshold poll : Nat) : Option Nat :=
  match fuel with
  | 0 => none
  | f + 1 =>
    let clock1 := clock + poll
    if lastResponse + threshold < clock1 then some clock1
    else listenLoop f clock1 lastResponse threshold poll

/-- What the `try` block of one `scrape_url` attempt does, abstracted to
the three exits the claims are about: a normal conclusion of the listening
loop, a playwright timeout raised out of the block (line 349-351 re-raise),
or the HTTP/2 protocol error early `return` (lines 320-327). -/
inductive TryOutcome where
  | success
  | timeoutErr
  | http2Skip
deriving DecidableEq

/-- One attempt of `scrape_url`'s body, abstracted to what the `finally`
block and the retry wrapper observe: how the `try` block exits, and the
values of `url_responses` and `api_url` at that moment. -/
structure Attempt (α : Type) where
  event : TryOutcome
  store : List α
  apiUrl : Option String
deriving DecidableEq

/-- The tail of the `finally` block (lines 364-402): always
`save_progress`; then choose the CSV writer by `"dutchie.com" in
api_url.lower()` — when `api_url` is `None` this raises `AttributeError`
(`None` has no `.lower()`), aborting the rest of the block; otherwise the
final flush runs (modelled as succeeding; CSV output is out of scope) and
the progress file is deleted. Returns the filesystem after the block and
the block's own outcome. -/
def finallyTail (fs : ProgressFS α) (progressKey : String) (store : List α)
    (apiUrl : Option String) : ProgressFS α × Except PyError Unit :=
  let fs1 := save_progress fs progressKey store apiUrl
  match apiUrl with
  | none => (fs1, .error .attributeError)
  | some _ => (deleteProgress fs1 progressKey, .ok ())

/-- One whole attempt of `scrape_url`: run the `try` block (abstracted by
`a.event`), then the `finally` tail; an exception raised in `finally`
replaces the `try` block's return or exception (Python semantics). On
success the function returns `url_responses` (line 405); the HTTP/2 skip
path returns `None` (bare `return`, line 325), modelled as `.ok none`. -/
def runAttempt (fs : ProgressFS α) (progressKey : String) (a : Attempt α) :
    ProgressFS α × Except PyError (Option (List α)) :=
  match finallyTail fs progressKey a.store a.apiUrl with
  | (fs1, .error e) => (fs1, .error e)
  | (fs1, .ok ()) =>
    match a.event with
    | .success => (fs1, .ok (some a.store))
    | .http2Skip => (fs1, .ok none)
    | .timeoutErr => (fs1, .error .timeoutError)

/-- The tenacity wrapper of `scrape_url` (lines 224-226):
`stop_after_attempt(MAX_RETRIES)`, retrying only when
`should_retry_exception` holds; with the default `reraise=False`,
exhausting the attempts raises `RetryError`; a non-retryable exception
propagates immediately. `remaining` is the number of attempts still
allowed; `attempts` supplies the abstracted behaviour of each successive
attempt (the model's input, one entry per attempt actually run). -/
def scrapeUrlRetry (progressKey : String) :
    Nat → List (Attempt α) → ProgressFS α →
    ProgressFS α × Except PyError (Option (List α))
  | 0, _, fs => (fs, .error .retryError)
  | _ + 1, [], fs => (fs, .error .retryError)
  | n + 1, a :: rest, fs =>
    match runAttempt fs progressKey a with
    | (fs1, .ok v) => (fs1, .ok v)
    | (fs1, .error e) =>
      if should_retry_exception e then
        match n with
        | 0 => (fs1, .error .retryError)
        | m + 1 => scrapeUrlRetry progressKey (m + 1) rest fs1
      else (fs1, .error e)

/-! ## Helper lemmas about the store -/

theorem any_beq_iff_mem [DecidableEq α] (s : List α) (p : α) :
    s.any (fun existing => existing == p) = true ↔ p ∈ s := by
  rw [List.any_eq_true]
  constructor
  · rintro ⟨x, hx, hbeq⟩
    rw [beq_iff_eq] at hbeq
    exact hbeq ▸ hx
  · intro h
    exact ⟨p, h, by simp⟩

theorem tryAdd_of_mem [DecidableEq α] {s : List α} {p : α} (h : p ∈ s) :
    tryAdd s p = s := by
  simp [tryAdd, (any_beq_iff_mem s p).mpr h]

theorem tryAdd_of_not_mem [DecidableEq α] {s : List α} {p : α} (h : p ∉ s) :
    tryAdd s p = s ++ [p] := by
  have : s.any (fun existing => existing == p) = false := by
    rw [← Bool.not_eq_true, any_beq_iff_mem]; exact h
  simp [tryAdd, this]

theorem foldl_tryAdd_spec [DecidableEq α] (ps : List α) :
    ∀ s : List α, s.Nodup →
      ∃ t, List.foldl tryAdd s ps = s ++ t ∧ List.Sublist t ps ∧ (s ++ t).Nodup ∧
        ∀ a, a ∈ s ++ t ↔ a ∈ s ∨ a ∈ ps := by
  induction ps with
  | nil =>
    intro s hs
    exact ⟨[], by simp, by simp, by simpa using hs, by simp⟩
  | cons p ps ih =>
    intro s hs
    by_cases hmem : p ∈ s
    · obtain ⟨t, ht1, ht2, ht3, ht4⟩ := ih s hs
      refine ⟨t, ?_, ht2.cons p, ht3, ?_⟩
      · rw [List.foldl_cons, tryAdd_of_mem hmem, ht1]
      · intro a
        rw [ht4 a]
        constructor
        · rintro (h | h)
          · exact Or.inl h
          · exact Or.inr (List.mem_cons_of_mem p h)
        · rintro (h | h)
          · exact Or.inl h
          · rcases List.mem_cons.mp h with rfl | h
            · exact Or.inl hmem
            · exact Or.inr h
    · have hnd : (s ++ [p]).Nodup := by
        rw [List.nodup_append]
        exact ⟨hs, List.nodup_singleton p, fun a ha hp => hmem ((List.mem_singleton.mp hp) ▸ ha)⟩
      obtain ⟨t, ht1, ht2, ht3, ht4⟩ := ih (s ++ [p]) hnd
      refine ⟨p :: t, ?_, ht2.cons₂ p, ?_, ?_⟩
      · rw [List.foldl_cons, tryAdd_of_not_mem hmem, ht1, List.append_assoc]
        rfl
      · rw [← List.singleton_append, ← List.append_assoc]
        exact ht3
      · intro a
        have := ht4 a
        simp only [List.mem_append, List.mem_singleton, List.mem_cons] at this ⊢
        tauto

/-- **C1.** For every sequence of submitted decoded payloads, folding them
through the store's `try_add` (the duplicate check of `handle_response`,
lines 275-276 and 298-299) yields a store with no two structurally equal
elements; each `try_add` grows the length by at most one; a repeated
identical `try_add` is a no-op after the first; and the retained payloads
are a subsequence of the submissions in first-arrival order, containing
exactly the submitted values. -/
theorem store_dedup_invariant {α : Type} [DecidableEq α] (ps : List α) :
    (List.foldl tryAdd [] ps).Nodup
    ∧ (∀ (s : List α) (p : α), (tryAdd s p).length ≤ s.length + 1)
    ∧ (∀ (s : List α) (p : α), tryAdd (tryAdd s p) p = tryAdd s p)
    ∧ List.Sublist (List.foldl tryAdd [] ps) ps
    ∧ (∀ a : α, a ∈ List.foldl tryAdd [] ps ↔ a ∈ ps) := by
  obtain ⟨t, ht1, ht2, ht3, ht4⟩ := foldl_tryAdd_spec ps [] List.nodup_nil
  simp only [List.nil_append] at ht1 ht3 ht4
  refine ⟨ht1 ▸ ht3, ?_, ?_, ht1 ▸ ht2, ?_⟩
  · intro s p
    by_cases h : p ∈ s
    · rw [tryAdd_of_mem h]; omega
    · rw [tryAdd_of_not_mem h]; simp
  · intro s p
    by_cases h : p ∈ s
    · rw [tryAdd_of_mem h, tryAdd_of_mem h]
    · rw [tryAdd_of_not_mem h, tryAdd_of_mem (by simp)]
  · intro a
    rw [ht1]
    simpa using ht4 a

/-- **C3.** Loading a progress file immediately after saving it returns
exactly the saved pair: `load_progress (save_progress fs key store endpoint)
key = (store, endpoint)`, for every prior filesystem, key, store snapshot
and (possibly null) endpoint. -/
theorem load_save_round_trip {α : Type} (fs : ProgressFS α) (key : String)
    (store : List α) (endpoint : Option String) :
    load_progress (save_progress fs key store endpoint) key = (store, endpoint) := by
  simp [load_progress, save_progress]

/-- Exhaustive case analysis of `handle_response`: a response is either
classified ignored and the whole state is untouched, or it matches a
platform and the endpoint is overwritten — with the store and timestamp
additionally updated exactly when the body decodes to a payload not already
in the store. -/
theorem handle_response_cases [DecidableEq α] (now : Nat) (r : NetResponse α)
    (st : HandlerState α) :
    (classify r = Classification.ignored ∧ handle_response now r st = st)
    ∨ (classify r ≠ Classification.ignored ∧ duplicateOrUndecodable r st = true ∧
        handle_response now r st = { st with apiUrl := some r.url })
    ∨ (classify r ≠ Classification.ignored ∧ duplicateOrUndecodable r st = false ∧
        ∃ j, r.json = some j ∧
          handle_response now r st =
            { apiUrl := some r.url, store := st.store ++ [j],
              lastResponseTime := now }) := by
  by_cases hA : (r.resourceType == "fetch" || r.resourceType == "xhr") = true
  · by_cases hB : isDutchie r = true
    · cases hj : r.json with
      | none =>
        exact Or.inr (Or.inl ⟨by simp [classify, hA, hB],
          by simp [duplicateOrUndecodable, hj],
          by simp [handle_response, hA, hB, hj]⟩)
      | some j =>
        by_cases hdup : st.store.any (fun existing => existing == j) = true
        · exact Or.inr (Or.inl ⟨by simp [classify, hA, hB],
            by simp [duplicateOrUndecodable, hj, hdup],
            by simp [handle_response, hA, hB, hj, hdup]⟩)
        · exact Or.inr (Or.inr ⟨by simp [classify, hA, hB],
            by simp [duplicateOrUndecodable, hj, hdup],
            j, rfl, by simp [handle_response, hA, hB, hj, hdup]⟩)
    · by_cases hC : isIheartjane r = true
      · cases hj : r.json with
        | none =>
          exact Or.inr (Or.inl ⟨by simp [classify, hA, hB, hC],
            by simp [duplicateOrUndecodable, hj],
            by simp [handle_response, hA, hB, hC, hj]⟩)
        | some j =>
          by_cases hdup : st.store.any (fun existing => existing == j) = true
          · exact Or.inr (Or.inl ⟨by simp [classify, hA, hB, hC],
              by simp [duplicateOrUndecodable, hj, hdup],
              by simp [handle_response, hA, hB, hC, hj, hdup]⟩)
          · exact Or.inr (Or.inr ⟨by simp [classify, hA, hB, hC],
              by simp [duplicateOrUndecodable, hj, hdup],
              j, rfl, by simp [handle_response, hA, hB, hC, hj, hdup]⟩)
      · exact Or.inl ⟨by simp [classify, hA, hB, hC],
          by simp [handle_response, hA, hB, hC]⟩
  · exact Or.inl ⟨by simp [classify, hA], by simp [handle_response, hA]⟩

/-- **C2 (counterexample).** The claimed host-based rule disagrees with the
code on a fetch response whose URL merely mentions the PlatformA domain in
its query string: the code classifies it PlatformA (substring test on the
whole URL, line 267) and inserts it into the store, while the claim's rule
(host matches neither domain, no header marker) says Ignore and that it
never appears in the store. -/
theorem classify_host_rule_cex :
    classify
        ({ resourceType := "fetch", url := "https://example.com/?ref=dutchie.com",
           headers := [], json := some 1 } : NetResponse Nat)
      = Classification.platformA
    ∧ classifySpecHost
        ({ resourceType := "fetch", url := "https://example.com/?ref=dutchie.com",
           headers := [], json := some 1 } : NetResponse Nat)
      = Classification.ignored
    ∧ (handle_response 7
        ({ resourceType := "fetch", url := "https://example.com/?ref=dutchie.com",
           headers := [], json := some 1 } : NetResponse Nat)
        ⟨none, [], 0⟩).store = [1] := by
  refine ⟨by decide, by decide, by decide⟩

/-- **C2 (amended).** Classification follows the ordered rule with
substring matching: not fetch/XHR → Ignored; else the lowercased
destination URL contains the PlatformA domain → PlatformA; else it
contains the PlatformB domain or the PlatformB header marker is present →
PlatformB; otherwise Ignored (`classify` coincides with `classifyAmended`,
the rule written from the amended words) — and a response classified
Ignored never changes the handler state, so it never appears in the
ResponseStore. -/
theorem classify_substring_rule {α : Type} [DecidableEq α] :
    (∀ r : NetResponse α, classify r = classifyAmended r)
    ∧ ∀ (r : NetResponse α) (st : HandlerState α) (now : Nat),
        classify r = Classification.ignored → handle_response now r st = st := by
  constructor
  · intro r; rfl
  · intro r st now h
    rcases handle_response_cases now r st with ⟨_, he⟩ | ⟨hne, _, _⟩ | ⟨hne, _, _⟩
    · exact he
    · exact absurd h hne
    · exact absurd h hne

/-- Witness for `classify_substring_rule`: a non-fetch/XHR response is
classified Ignored and leaves the handler state untouched. -/
theorem classify_substring_rule_witness :
    handle_response 3
        ({ resourceType := "document", url := "https://shop.example/menu",
           headers := [], json := some 1 } : NetResponse Nat)
        ⟨none, [], 0⟩
      = ⟨none, [], 0⟩ :=
  (classify_substring_rule (α := Nat)).2
    { resourceType := "document", url := "https://shop.example/menu",
      headers := [], json := some 1 }
    ⟨none, [], 0⟩ 3 (by decide)

/-- The listening loop exits at the first poll at which the idle threshold
is exceeded, which lies within one polling interval past the threshold. -/
theorem listenLoop_exit (fuel clock lastResponse threshold poll : Nat)
    (hpoll : 0 < poll) (hclock : clock ≤ lastResponse + threshold)
    (hfuel : lastResponse + threshold + 1 ≤ clock + fuel) :
    ∃ exitClock,
      listenLoop fuel clock lastResponse threshold poll = some exitClock ∧
      lastResponse + threshold < exitClock ∧
      exitClock ≤ lastResponse + threshold + poll := by
  induction fuel generalizing clock with
  | zero => exfalso; omega
  | succ f ih =>
    by_cases h : lastResponse + threshold < clock + poll
    · exact ⟨clock + poll, by simp [listenLoop, h], h, by omega⟩
    · obtain ⟨e, he1, he2, he3⟩ := ih (clock + poll) (by omega) (by omega)
      exact ⟨e, by simpa [listenLoop, h] using he1, he2, he3⟩

/-- **C4.** While listening with no accepted insert (so
`last_response_time` stays fixed), the polling loop of `scrape_url`
(lines 339-345) exits at a wall time strictly past the idle threshold and
at most one polling interval past it, provided it entered before the
threshold elapsed and has fuel for the iterations; and a duplicate,
undecodable or ignored response never changes `last_response_time`, so
such responses do not reset the idle clock. In the source the poll is 5
seconds and the threshold 30 seconds. -/
theorem idle_timeout_within_poll {α : Type} [DecidableEq α]
    (fuel clock lastResponse threshold poll : Nat)
    (hpoll : 0 < poll) (hclock : clock ≤ lastResponse + threshold)
    (hfuel : lastResponse + threshold + 1 ≤ clock + fuel) :
    (∃ exitClock,
        listenLoop fuel clock lastResponse threshold poll = some exitClock ∧
        lastResponse + threshold < exitClock ∧
        exitClock ≤ lastResponse + threshold + poll)
    ∧ ∀ (r : NetResponse α) (st : HandlerState α) (now : Nat),
        duplicateOrUndecodable r st = true ∨ classify r = Classification.ignored →
        (handle_response now r st).lastResponseTime = st.lastResponseTime := by
  refine ⟨listenLoop_exit fuel clock lastResponse threshold poll hpoll hclock hfuel, ?_⟩
  intro r st now h
  rcases handle_response_cases now r st with ⟨_, he⟩ | ⟨_, _, he⟩ | ⟨hne, hdupf, _, _, _⟩
  · rw [he]
  · rw [he]
  · rcases h with h | h
    · rw [h] at hdupf; exact absurd hdupf (by simp)
    · exact absurd h hne

/-- Witness for `idle_timeout_within_poll`: with the source's constants
(threshold 30 s, poll 5 s) and the clocks starting at 0, the loop exits at
35 s; both a duplicate platform response and an ignored response carrying a
fresh decodable payload leave `last_response_time` at 4. -/
theorem idle_timeout_within_poll_witness :
    (∃ exitClock, listenLoop 31 0 0 30 5 = some exitClock ∧
        30 < exitClock ∧ exitClock ≤ 35)
    ∧ (handle_response 9
        ({ resourceType := "fetch", url := "https://dutchie.com/graphql",
           headers := [], json := some 1 } : NetResponse Nat)
        ⟨some "u", [1], 4⟩).lastResponseTime = 4
    ∧ (handle_response 9
        ({ resourceType := "fetch", url := "https://other.example/api",
           headers := [], json := some 2 } : NetResponse Nat)
        ⟨some "u", [1], 4⟩).lastResponseTime = 4 := by
  have h := idle_timeout_within_poll (α := Nat) 31 0 0 30 5
    (by decide) (by decide) (by decide)
  refine ⟨h.1, ?_, ?_⟩
  · exact h.2
      { resourceType := "fetch", url := "https://dutchie.com/graphql",
        headers := [], json := some 1 }
      ⟨some "u", [1], 4⟩ 9 (Or.inl (by decide))
  · exact h.2
      { resourceType := "fetch", url := "https://other.example/api",
        headers := [], json := some 2 }
      ⟨some "u", [1], 4⟩ 9 (Or.inr (by decide))

/-- **C10.** For a fetch/XHR response matching a platform fingerprint, the
handler overwrites the detected endpoint `api_url` before the duplicate
check and before JSON decoding: when the response is a structural duplicate
or its body does not decode, the store and the idle clock are unchanged but
`api_url` is still set to the response URL. -/
theorem endpoint_overwritten_on_duplicate {α : Type} [DecidableEq α]
    (r : NetResponse α) (st : HandlerState α) (now : Nat)
    (hmatch : classify r ≠ Classification.ignored)
    (hdup : duplicateOrUndecodable r st = true) :
    handle_response now r st = { st with apiUrl := some r.url } := by
  rcases handle_response_cases now r st with ⟨hig, _⟩ | ⟨_, _, he⟩ | ⟨_, hdupf, _, _, _⟩
  · exact absurd hig hmatch
  · exact he
  · rw [hdup] at hdupf; exact absurd hdupf (by simp)

/-- Witness for `endpoint_overwritten_on_duplicate`: a duplicate PlatformA
response leaves the store `[5]` and timestamp `2` alone but redirects the
detected endpoint to its URL. -/
theorem endpoint_overwritten_witness :
    handle_response 9
        ({ resourceType := "xhr", url := "https://api.dutchie.com/graphql",
           headers := [], json := some 5 } : NetResponse Nat)
        ⟨some "old", [5], 2⟩
      = ⟨some "https://api.dutchie.com/graphql", [5], 2⟩ :=
  endpoint_overwritten_on_duplicate
    { resourceType := "xhr", url := "https://api.dutchie.com/graphql",
      headers := [], json := some 5 }
    ⟨some "old", [5], 2⟩ 9 (by decide) (by decide)

/-- **C5 (code bug).** Contrary to the claim, retry exhaustion does not
reach `Done` with a final flush for an empty store. First conjunct: a
single timeout attempt with zero captured responses (`api_url = None`)
makes the `finally` block raise `AttributeError` at `api_url.lower()`
(line 372), which is non-retryable, so `scrape_url` fails immediately —
no final CSV flush happens. Second conjunct: `max_retries` (3) consecutive
timeout attempts that each captured a response end in tenacity's
`RetryError` propagating to the caller, not in a clean return. -/
theorem retry_exhaustion_failing_input :
    (scrapeUrlRetry "progress_httpsexamplecom.pkl" 3
        [({ event := .timeoutErr, store := [], apiUrl := none } : Attempt Nat)]
        (emptyFS Nat)).2
      = Except.error PyError.attributeError
    ∧ (scrapeUrlRetry "progress_httpsexamplecom.pkl" 3
        [({ event := .timeoutErr, store := [1],
            apiUrl := some "https://dutchie.com/graphql" } : Attempt Nat),
          { event := .timeoutErr, store := [1],
            apiUrl := some "https://dutchie.com/graphql" },
          { event := .timeoutErr, store := [1],
            apiUrl := some "https://dutchie.com/graphql" }]
        (emptyFS Nat)).2
      = Except.error PyError.retryError := by
  exact ⟨rfl, rfl⟩

/-- **C6 (code bug).** Contrary to the claim, the progress file is deleted
while a retry is still pending: an attempt that captured a response
(`api_url` set) and then hit a retryable timeout runs the `finally` block,
whose flush succeeds and which then deletes the progress file (lines
377-380) — after which the timeout propagates to tenacity and a retry
follows. Evaluated here: the progress file existed before the attempt, is
gone after it, and the attempt's outcome is the retryable timeout. -/
theorem progress_deleted_before_retry_failing_input :
    ((runAttempt
        (fun k => if k = "progress_site.pkl" then some ([0], some "u") else none)
        "progress_site.pkl"
        ({ event := .timeoutErr, store := [0, 1],
           apiUrl := some "https://dutchie.com/graphql" } : Attempt Nat)).1
      "progress_site.pkl" = none)
    ∧ (runAttempt
        (fun k => if k = "progress_site.pkl" then some ([0], some "u") else none)
        "progress_site.pkl"
        ({ event := .timeoutErr, store := [0, 1],
           apiUrl := some "https://dutchie.com/graphql" } : Attempt Nat)).2
      = Except.error PyError.timeoutError
    ∧ should_retry_exception PyError.timeoutError = true := by
  refine ⟨?_, rfl, rfl⟩
  simp [runAttempt, finallyTail, deleteProgress, save_progress]

/-- **C7 (code bug).** Contrary to the claim, a fresh URL whose navigation
fails with the HTTP/2 protocol error does not complete cleanly with zero
results: the early `return` (line 325) still runs the `finally` block,
where `api_url` is `None` and `api_url.lower()` (line 372) raises
`AttributeError`, so `scrape_url` raises instead of returning; the error is
non-retryable, so no retry attempts are consumed, but the run ends in an
error, not a clean skip. -/
theorem http2_skip_failing_input :
    (scrapeUrlRetry "progress_fresh.pkl" 3
        [({ event := .http2Skip, store := [], apiUrl := none } : Attempt Nat)]
        (emptyFS Nat)).2
      = Except.error PyError.attributeError
    ∧ should_retry_exception PyError.attributeError = false := by
  exact ⟨rfl, rfl⟩

/-- **C8.** `custom_timeout_handler` waits for the network-idle signal; when
it is reached the handler succeeds regardless of the body check; when the
wait times out there are exactly two outcomes: success when the minimal
page-body element exists (degraded success), and the `PageUnusable`-class
playwright timeout error "Page body not found after timeout" when it does
not. -/
theorem awaitReady_timeout_outcomes :
    (∀ body : Bool, custom_timeout_handler true body = Except.ok ())
    ∧ custom_timeout_handler false true = Except.ok ()
    ∧ custom_timeout_handler false false
        = Except.error (PyError.timeoutError, "Page body not found after timeout")
    ∧ ∀ body : Bool,
        custom_timeout_handler false body = Except.ok ()
        ∨ custom_timeout_handler false body
            = Except.error (PyError.timeoutError, "Page body not found after timeout") := by
  refine ⟨fun body => rfl, rfl, rfl, fun body => ?_⟩
  cases body
  · exact Or.inr rfl
  · exact Or.inl rfl

/-- **C9 (counterexample).** The progress-key derivation is not injective
over valid target URLs: `https://ab.com` and `https://a.b.com` are distinct
valid URLs (scheme and host both present) whose sanitized keys coincide,
because `sanitize_filename` drops `:`, `/` and `.` alike, giving
`progress_httpsabcom.pkl` for both. -/
theorem progress_key_not_injective_cex :
    is_valid_url "https://ab.com" = true
    ∧ is_valid_url "https://a.b.com" = true
    ∧ "https://ab.com" ≠ "https://a.b.com"
    ∧ progressFile "https://ab.com" = progressFile "https://a.b.com" := by
  refine ⟨rfl, rfl, by decide, rfl⟩

/-- **C9 (amended).** The filesystem key for a progress snapshot is derived
deterministically from the target URL (a pure function of the URL string),
but the derivation is not injective over valid target URLs: distinct valid
URLs that differ only in characters removed by `sanitize_filename` share
the same key. -/
theorem progress_key_deterministic_not_injective :
    (∀ u v : String, u = v → progressFile u = progressFile v)
    ∧ ∃ u v : String, is_valid_url u = true ∧ is_valid_url v = true ∧
        u ≠ v ∧ progressFile u = progressFile v := by
  constructor
  · intro u v h; rw [h]
  · exact ⟨"https://ab.com", "https://a.b.com", rfl, rfl, by decide, rfl⟩

/-- Witness for `progress_key_deterministic_not_injective`: determinism at
a concrete URL. -/
theorem progress_key_deterministic_witness :
    progressFile "https://x.com" = progressFile "https://x.com" :=
  progress_key_deterministic_not_injective.1 "https://x.com" "https://x.com" rfl

end GplScraper
